import Mathlib

/-!
Verification of the Plantagotchi ingestion-framing-and-broadcast gateway.

The repository consists of an Arduino sketch (`hackathonplant.ino`) that
emits sensor frames over a serial line, and a gateway server (documented in
`Final Server/SETUP_VERIFICATION.md` and the server README) that reassembles
frames from the chunked character stream, validates them, stores the latest
reading and broadcasts it to WebSocket subscribers.  The server's TypeScript
source is not part of the checked-out sources, so its components
(FrameAssembler, FrameValidator, StateStore, BroadcastHub) are modelled
from the specification; the Arduino sketch is embedded from its source.
-/

namespace Plantagotchi

/-! ## FrameAssembler: delimiter-balancing frame reassembly -/

/-- The opening frame delimiter (an opening curly brace). -/
def lbrace : Char := '\x7b'

/-- The closing frame delimiter (a closing curly brace). -/
def rbrace : Char := '\x7d'

/-- Modelled from the spec: the server's `FrameBuffer` (the TypeScript
server source is missing from the sources) — a transient per-stream
accumulator holding the buffered text plus an integer nesting depth. -/
structure FrameBuffer where
  buf : List Char
  depth : Int
deriving DecidableEq, Repr

/-- The initial (Idle) buffer state: empty text, depth zero. -/
def FrameBuffer.init : FrameBuffer := ⟨[], 0⟩

/-- Modelled from the spec: one character step of the server's missing
FrameAssembler two-state machine.  In Idle (depth 0) every character other
than an opening delimiter is discarded; an opening delimiter starts
buffering at depth 1.  While accumulating (depth > 0) every character is
appended, an opening delimiter increments the depth, a closing delimiter
decrements it, and when the depth returns to 0 the buffered text including
both delimiters is emitted and the buffer cleared. -/
def stepChar (st : FrameBuffer) (c : Char) : FrameBuffer × List (List Char) :=
  if st.depth = 0 then
    if c = lbrace then (⟨[lbrace], 1⟩, []) else (st, [])
  else
    if c = lbrace then (⟨st.buf ++ [c], st.depth + 1⟩, [])
    else if c = rbrace then
      if st.depth = 1 then (⟨[], 0⟩, [st.buf ++ [c]])
      else (⟨st.buf ++ [c], st.depth - 1⟩, [])
    else (⟨st.buf ++ [c], st.depth⟩, [])

/-- Modelled from the spec: the missing server's `feed(chunk)` — process one
chunk character by character, collecting every emitted candidate frame in
arrival order. -/
def feed : FrameBuffer → List Char → FrameBuffer × List (List Char)
  | st, [] => (st, [])
  | st, c :: cs =>
      ((feed (stepChar st c).1 cs).1,
        (stepChar st c).2 ++ (feed (stepChar st c).1 cs).2)

/-- Feeding a sequence of chunks in order, collecting all candidates. -/
def feedAll : FrameBuffer → List (List Char) → FrameBuffer × List (List Char)
  | st, [] => (st, [])
  | st, ch :: chs =>
      ((feedAll (feed st ch).1 chs).1,
        (feed st ch).2 ++ (feedAll (feed st ch).1 chs).2)

/-- The delimiter contribution of one character: +1 for an opening
delimiter, -1 for a closing delimiter, 0 otherwise. -/
def chDelta (c : Char) : Int :=
  if c = lbrace then 1 else if c = rbrace then -1 else 0

/-- The delimiter balance of a character sequence. -/
def bal (t : List Char) : Int := (t.map chDelta).sum

/-- A valid (delimiter-balanced) frame text: it starts with the opening
delimiter, its total balance is zero, and every proper nonempty prefix has
strictly positive balance (so the frame closes exactly at its last
character). -/
def ValidFrame (t : List Char) : Prop :=
  t.head? = some lbrace ∧ bal t = 0 ∧
    ∀ p ∈ t.inits, p ≠ [] → p ≠ t → 0 < bal p

instance : DecidablePred ValidFrame := fun t => by
  unfold ValidFrame; infer_instance

/-- The buffer invariant of the spec: depth never negative, and the
buffered text is empty whenever the depth is zero (Idle). -/
def BufferInv (st : FrameBuffer) : Prop :=
  0 ≤ st.depth ∧ (st.depth = 0 → st.buf = [])

/-! ## Structured frames and the FrameValidator -/

/-- A structured (JSON-like) value, the result of decoding a candidate
frame text.  Numbers are modelled as rationals (integers may be
represented as floats on the wire). -/
inductive Json where
  | null : Json
  | bool (b : Bool) : Json
  | num (q : Rat) : Json
  | str (s : String) : Json
  | arr (xs : List Json) : Json
  | obj (fields : List (String × Json)) : Json

/-- First-match field lookup in a decoded object. -/
def getField : List (String × Json) → String → Option Json
  | [], _ => none
  | (k', v) :: rest, k => if k' = k then some v else getField rest k

/-- Numeric projection of a structured value. -/
def asNum : Json → Option Rat
  | .num q => some q
  | _ => none

/-- String projection of a structured value. -/
def asStr : Json → Option String
  | .str s => some s
  | _ => none

/-- Object projection of a structured value. -/
def asObj : Json → Option (List (String × Json))
  | .obj fields => some fields
  | _ => none

/-- Field lookup returning the field's numeric value, `none` when the field
is absent or non-numeric. -/
def numField (fields : List (String × Json)) (k : String) : Option Rat :=
  (getField fields k).bind asNum

/-- The six numeric sensor fields of one accepted reading. -/
structure Reading where
  soil : Rat
  temp : Rat
  hum : Rat
  mq2 : Rat
  rain : Rat
  bio : Rat
deriving DecidableEq, Repr

/-- The canonical payload stored and broadcast: the human-readable
semicolon-delimited line together with the structured reading. -/
structure CanonicalPayload where
  line : String
  reading : Reading
deriving DecidableEq, Repr

/-- The six expected numeric keys of the nested sensor object. -/
def expectedKeys : List String := ["soil", "temp", "hum", "mq2", "rain", "bio"]

/-- Modelled from the spec: the missing server's `FrameValidator.validate` —
requires a top-level object with a raw-line string field and a nested
object carrying the six expected numeric keys, all present and numeric;
anything else is a rejection (`none`). -/
def validate (j : Json) : Option CanonicalPayload :=
  (asObj j).bind fun fields =>
  ((getField fields "line").bind asStr).bind fun line =>
  ((getField fields "json").bind asObj).bind fun sensor =>
  (numField sensor "soil").bind fun soil =>
  (numField sensor "temp").bind fun temp =>
  (numField sensor "hum").bind fun hum =>
  (numField sensor "mq2").bind fun mq2 =>
  (numField sensor "rain").bind fun rain =>
  (numField sensor "bio").bind fun bio =>
  some ⟨line, ⟨soil, temp, hum, mq2, rain, bio⟩⟩

/-- Validation of a decode result: a failed structured decoding (`none`)
is a rejection. -/
def validateDecoded : Option Json → Option CanonicalPayload
  | none => none
  | some j => validate j

/-- Whether a decoded candidate carries numeric key `k` inside its nested
sensor object. -/
def hasNumericKey (j : Json) (k : String) : Bool :=
  (((asObj j).bind fun fields => (getField fields "json").bind asObj).bind
    fun sensor => numField sensor k).isSome

/-! ## StateStore, BroadcastHub and the event-driven gateway -/

/-- The ingestion path a frame arrived through. -/
inductive Source where
  | stream : Source
  | discrete : Source
deriving DecidableEq, Repr

/-- StateStore's single slot: payload, receipt timestamp and source tag. -/
structure CurrentState where
  payload : CanonicalPayload
  receivedAt : Nat
  source : Source
deriving DecidableEq, Repr

/-- A connected subscriber: its identity and the ordered list of payloads
delivered to it so far. -/
structure Subscriber where
  id : Nat
  inbox : List CanonicalPayload
deriving DecidableEq, Repr

/-- Modelled from the spec: the missing server's gateway state — the
StateStore slot, the BroadcastHub subscriber set, the next fresh
subscriber identity, and the accepted/rejected counters of the
HealthReporter. -/
structure Sys where
  store : Option CurrentState
  subs : List Subscriber
  nextId : Nat
  accepted : Nat
  rejected : Nat
deriving DecidableEq, Repr

/-- The gateway state at startup: no reading, no subscribers. -/
def Sys.init : Sys := ⟨none, [], 0, 0, 0⟩

/-- Delivery of one payload to one subscriber (appended to its inbox). -/
def deliver (s : Subscriber) (p : CanonicalPayload) : Subscriber :=
  { s with inbox := s.inbox ++ [p] }

/-- Modelled from the spec: the missing server's per-subscriber isolated
fan-out — each send is attempted independently; a failing subscriber
(`fails s.id p = true`) is removed from the set, every other subscriber
receives the payload. -/
def publishSubs (fails : Nat → CanonicalPayload → Bool)
    (subs : List Subscriber) (p : CanonicalPayload) : List Subscriber :=
  subs.filterMap (fun s => if fails s.id p then none else some (deliver s p))

/-- The gateway's events: an accepted frame, a heartbeat timer tick, a
subscriber connection and a subscriber disconnection. -/
inductive Event where
  | accept (p : CanonicalPayload) (src : Source) (t : Nat) : Event
  | tick : Event
  | connect : Event
  | disconnect (id : Nat) : Event

/-- Whether an event is the acceptance of a frame. -/
def isAccept : Event → Bool
  | .accept _ _ _ => true
  | _ => false

/-- Modelled from the spec: one event handler of the missing server, run to
completion before the next.  An accepted frame overwrites the store and is
published once to every current subscriber; a heartbeat tick re-publishes
the current store value and is a no-op before the first reading; a
connection registers a fresh subscriber; a disconnection removes it. -/
def stepEvent (fails : Nat → CanonicalPayload → Bool) (sys : Sys) : Event → Sys
  | .accept p src t =>
      { sys with
        store := some ⟨p, t, src⟩,
        subs := publishSubs fails sys.subs p,
        accepted := sys.accepted + 1 }
  | .tick =>
      match sys.store with
      | none => sys
      | some cs => { sys with subs := publishSubs fails sys.subs cs.payload }
  | .connect =>
      { sys with subs := sys.subs ++ [⟨sys.nextId, []⟩], nextId := sys.nextId + 1 }
  | .disconnect i =>
      { sys with subs := sys.subs.filter (fun s => s.id != i) }

/-- Running a sequence of events from a gateway state. -/
def run (fails : Nat → CanonicalPayload → Bool) (sys : Sys) (evs : List Event) : Sys :=
  evs.foldl (stepEvent fails) sys

/-- Look a subscriber up by identity. -/
def findSub (sys : Sys) (i : Nat) : Option Subscriber :=
  sys.subs.find? (fun s => s.id == i)

/-- StateStore's `get()`: the current state, `none` before the first
reading. -/
def sysGet (sys : Sys) : Option CurrentState := sys.store

/-- Modelled from the spec: handling of one decoded candidate by the
missing server — a rejection is counted and has no other effect; an
accepted payload goes through the StateStore write and the broadcast. -/
def handleDecoded (fails : Nat → CanonicalPayload → Bool) (sys : Sys)
    (d : Option Json) (src : Source) (t : Nat) : Sys :=
  match validateDecoded d with
  | none => { sys with rejected := sys.rejected + 1 }
  | some p => stepEvent fails sys (.accept p src t)

/-- Ingestion of one candidate frame text: decode, then validate and
dispatch. -/
def ingest (fails : Nat → CanonicalPayload → Bool) (decode : List Char → Option Json)
    (sys : Sys) (text : List Char) (src : Source) (t : Nat) : Sys :=
  handleDecoded fails sys (decode text) src t

/-- The continuous stream path: chunks are reassembled by the
FrameAssembler and every emitted candidate is ingested in order with the
stream source tag. -/
def ingestStream (fails : Nat → CanonicalPayload → Bool)
    (decode : List Char → Option Json) (sys : Sys) (st : FrameBuffer)
    (chunks : List (List Char)) (t : Nat) : FrameBuffer × Sys :=
  ((feedAll st chunks).1,
    (feedAll st chunks).2.foldl (fun acc c => ingest fails decode acc c .stream t) sys)

/-- The gateway invariant: every subscriber identity is below the fresh
counter, and identities are pairwise distinct. -/
def SysInv (sys : Sys) : Prop :=
  (∀ s ∈ sys.subs, s.id < sys.nextId) ∧ (sys.subs.map Subscriber.id).Nodup

/-! ## The sensor device (`hackathonplant.ino`) -/

/-- The six values of one device loop iteration, after the NaN guard and
after the one-decimal rounding the sketch's `String(x, 1)` applies:
temperature and humidity are carried as signed tenths. -/
structure SensorVals where
  soil : Int
  rain : Int
  mq2 : Int
  bio : Int
  tempTenths : Int
  humTenths : Int
deriving DecidableEq, Repr

/-- Decimal rendering of an integer, as Arduino's `String(int)`. -/
def intStr (i : Int) : List Char :=
  if i < 0 then '-' :: Nat.toDigits 10 i.natAbs else Nat.toDigits 10 i.toNat

/-- One-decimal rendering of a nonnegative number of tenths. -/
def fmt1Nat (n : Nat) : List Char :=
  Nat.toDigits 10 (n / 10) ++ '.' :: Nat.toDigits 10 (n % 10)

/-- One-decimal rendering of a signed number of tenths, as Arduino's
`String(float, 1)` renders the rounded value. -/
def fmt1 (tenths : Int) : List Char :=
  if tenths < 0 then '-' :: fmt1Nat tenths.natAbs else fmt1Nat tenths.toNat

/-- The `line` string built by the sketch's `loop`:
`STATE;soil=…;temp=…;hum=…;mq2=…;rain=…;bio=…` with temperature and
humidity rendered with one decimal digit and the others as integers. -/
def buildLine (v : SensorVals) : List Char :=
  "STATE;soil=".data ++ intStr v.soil
    ++ ";temp=".data ++ fmt1 v.tempTenths
    ++ ";hum=".data ++ fmt1 v.humTenths
    ++ ";mq2=".data ++ intStr v.mq2
    ++ ";rain=".data ++ intStr v.rain
    ++ ";bio=".data ++ intStr v.bio

/-- The nested `json` object built by the sketch's `loop`, carrying the
same six values: temperature and humidity as tenths-precision rationals,
the others as integers. -/
def deviceJsonFields (v : SensorVals) : List (String × Json) :=
  [("soil", .num (v.soil : Rat)),
   ("temp", .num ((v.tempTenths : Rat) / 10)),
   ("hum", .num ((v.humTenths : Rat) / 10)),
   ("mq2", .num (v.mq2 : Rat)),
   ("rain", .num (v.rain : Rat)),
   ("bio", .num (v.bio : Rat))]

/-- The structured frame the sketch prints: a top-level object with the
`line` string and the nested `json` sensor object. -/
def deviceFrame (v : SensorVals) : Json :=
  .obj [("line", .str (String.mk (buildLine v))), ("json", .obj (deviceJsonFields v))]

/-- Integer rendering of a numeric field value extracted from the nested
object. -/
def encodeInt (q : Rat) : List Char := intStr q.num

/-- One-decimal rendering of a numeric field value extracted from the
nested object. -/
def encodeFrac1 (q : Rat) : List Char := fmt1 (q * 10).num

/-- A raw DHT sensor read: `none` models a NaN result. -/
structure RawDht where
  temp : Option Int
  hum : Option Int

/-- The sketch's NaN guard: `if (isnan(x)) x = 0;` — a failed read becomes
the value 0. -/
def dhtOrZero : Option Int → Int
  | none => 0
  | some t => t

/-- One iteration of the sketch's `loop`, from raw analog reads and the
(possibly NaN) DHT reads to the emitted values. -/
def loopVals (soil rain mq2 bio : Int) (d : RawDht) : SensorVals :=
  ⟨soil, rain, mq2, bio, dhtOrZero d.temp, dhtOrZero d.hum⟩

/-! ## Concrete fixtures used by witnesses -/

/-- A well-formed decoded sample frame (the spec's example reading). -/
def sampleJson : Json :=
  .obj [("line", .str "STATE;soil=395;temp=22.9;hum=19.0;mq2=85;rain=1020;bio=513"),
        ("json", .obj [("soil", .num 395), ("temp", .num (229 / 10)),
                       ("hum", .num 19), ("mq2", .num 85),
                       ("rain", .num 1020), ("bio", .num 513)])]

/-- A structurally invalid decoded candidate: the nested sensor object
lacks the `bio` key. -/
def sampleBadJson : Json :=
  .obj [("line", .str "s"),
        ("json", .obj [("soil", .num 1), ("temp", .num 2), ("hum", .num 3),
                       ("mq2", .num 4), ("rain", .num 5)])]

/-- A decoder stub returning the sample frame for any text. -/
def sampleDecode : List Char → Option Json := fun _ => some sampleJson

/-- A failure oracle under which every send succeeds. -/
def noFail : Nat → CanonicalPayload → Bool := fun _ _ => false

/-- A sample canonical payload. -/
def samplePayload : CanonicalPayload := ⟨"a", ⟨1, 2, 3, 4, 5, 6⟩⟩

/-- A second sample canonical payload. -/
def samplePayload2 : CanonicalPayload := ⟨"b", ⟨7, 8, 9, 10, 11, 12⟩⟩

/-! ## Lemmas about the FrameAssembler -/

lemma rbrace_ne_lbrace : rbrace ≠ lbrace := by decide

lemma bal_cons (c : Char) (t : List Char) : bal (c :: t) = chDelta c + bal t := by
  simp [bal]

lemma bal_append (a b : List Char) : bal (a ++ b) = bal a + bal b := by
  simp [bal]

lemma chDelta_cases (c : Char) : chDelta c = 1 ∨ chDelta c = -1 ∨ chDelta c = 0 := by
  unfold chDelta; split_ifs <;> simp

lemma chDelta_eq_neg_one {c : Char} (h : chDelta c = -1) : c = rbrace := by
  unfold chDelta at h
  by_cases h1 : c = lbrace
  · rw [if_pos h1] at h; exact absurd h (by decide)
  · rw [if_neg h1] at h
    by_cases h2 : c = rbrace
    · exact h2
    · rw [if_neg h2] at h; exact absurd h (by decide)

lemma feed_cons (st : FrameBuffer) (c : Char) (cs : List Char) :
    feed st (c :: cs) =
      ((feed (stepChar st c).1 cs).1,
        (stepChar st c).2 ++ (feed (stepChar st c).1 cs).2) := rfl

lemma feed_append (st : FrameBuffer) (a b : List Char) :
    feed st (a ++ b) =
      ((feed (feed st a).1 b).1, (feed st a).2 ++ (feed (feed st a).1 b).2) := by
  induction a generalizing st with
  | nil => simp [feed]
  | cons c cs ih => simp [feed_cons, ih, List.append_assoc]

lemma stepChar_acc (b : List Char) (d : Int) (c : Char) (hd : d ≠ 0)
    (h1 : ¬(c = rbrace ∧ d = 1)) :
    stepChar ⟨b, d⟩ c = (⟨b ++ [c], d + chDelta c⟩, []) := by
  by_cases hcl : c = lbrace
  · subst hcl; simp [stepChar, hd, chDelta]
  · by_cases hcr : c = rbrace
    · subst hcr
      have hd1 : d ≠ 1 := fun h => h1 ⟨rfl, h⟩
      simp [stepChar, hd, hd1, chDelta, rbrace_ne_lbrace]
      omega
    · simp [stepChar, hd, hcl, hcr, chDelta]

lemma feed_accum (s : List Char) :
    ∀ (b : List Char) (d : Int), 0 < d →
      (∀ p, p <+: s → p ≠ [] → 0 < d + bal p) →
      feed ⟨b, d⟩ s = (⟨b ++ s, d + bal s⟩, []) := by
  induction s with
  | nil => intro b d _ _; simp [feed, bal]
  | cons c cs ih =>
    intro b d hd hpre
    have hc : 0 < d + chDelta c := by
      have h1 := hpre [c] ⟨cs, rfl⟩ (by simp)
      simpa [bal_cons, bal] using h1
    have hrest : ∀ p, p <+: cs → p ≠ [] → 0 < (d + chDelta c) + bal p := by
      intro p hp hne
      have h2 := hpre (c :: p) ((List.cons_prefix_cons).2 ⟨rfl, hp⟩) (by simp)
      rw [bal_cons] at h2
      omega
    have hstep := stepChar_acc b d c (by omega)
      (by rintro ⟨rfl, rfl⟩; simp [chDelta, rbrace_ne_lbrace] at hc)
    rw [feed_cons, hstep]
    dsimp only
    rw [ih (b ++ [c]) (d + chDelta c) hc hrest]
    simp [bal_cons, List.append_assoc, FrameBuffer.mk.injEq]
    omega

theorem feed_validFrame (t : List Char) (h : ValidFrame t) :
    feed FrameBuffer.init t = (FrameBuffer.init, [t]) := by
  obtain ⟨hhead, hbal, hpre⟩ := h
  have hpre' : ∀ p, p <+: t → p ≠ [] → p ≠ t → 0 < bal p := by
    intro p hp
    exact hpre p ((List.mem_inits _ _).mpr hp)
  cases t with
  | nil => simp at hhead
  | cons c rest =>
    have hc : c = lbrace := by simpa using hhead
    subst hc
    rcases List.eq_nil_or_concat rest with rfl | ⟨body, a, hrest⟩
    · simp [bal_cons, bal, chDelta] at hbal
    · rw [List.concat_eq_append] at hrest
      subst hrest
      have hbody_pre : ∀ p, p <+: body → p ≠ [] → 0 < 1 + bal p := by
        intro p hp hne
        have h1 : (lbrace :: p) <+: (lbrace :: (body ++ [a])) :=
          (List.cons_prefix_cons).2 ⟨rfl, hp.trans (List.prefix_append body [a])⟩
        have h2 : (lbrace :: p) ≠ (lbrace :: (body ++ [a])) := by
          intro hEq
          have hl1 : p.length + 1 = body.length + 2 := by
            have := congrArg List.length hEq; simpa using this
          have hl2 : p.length ≤ body.length := hp.length_le
          omega
        have h3 := hpre' _ h1 (by simp) h2
        rw [bal_cons] at h3
        simpa [chDelta] using h3
      have hmid : 0 < 1 + bal body := by
        rcases eq_or_ne body [] with rfl | hne
        · simp [bal]
        · exact hbody_pre body List.prefix_rfl hne
      have hbal' : 1 + (bal body + chDelta a) = 0 := by
        have hb : bal (lbrace :: (body ++ [a])) = 1 + (bal body + chDelta a) := by
          simp [bal_cons, bal_append, bal, chDelta]
        rw [hb] at hbal
        exact hbal
      have hca : chDelta a = -1 := by
        rcases chDelta_cases a with h1 | h1 | h1 <;> omega
      have hbody0 : bal body = 0 := by omega
      have ha : a = rbrace := chDelta_eq_neg_one hca
      subst ha
      rw [feed_cons]
      have hstep0 : stepChar FrameBuffer.init lbrace = (⟨[lbrace], 1⟩, []) := by
        simp [stepChar, FrameBuffer.init]
      rw [hstep0]
      simp only
      rw [feed_append]
      rw [feed_accum body [lbrace] 1 one_pos
        (by intro p hp hne; have := hbody_pre p hp hne; omega)]
      simp only
      rw [feed_cons]
      have hstep1 : stepChar ⟨[lbrace] ++ body, 1 + bal body⟩ rbrace
          = (⟨[], 0⟩, [([lbrace] ++ body) ++ [rbrace]]) := by
        rw [hbody0]
        simp [stepChar, rbrace_ne_lbrace]
      rw [hstep1]
      simp [feed, FrameBuffer.init]

lemma feedAll_eq (st : FrameBuffer) (chunks : List (List Char)) :
    feedAll st chunks = feed st chunks.flatten := by
  induction chunks generalizing st with
  | nil => simp [feedAll, feed]
  | cons ch chs ih => simp [feedAll, List.flatten, feed_append, ih]

lemma feed_frames (frames : List (List Char)) (h : ∀ f ∈ frames, ValidFrame f) :
    feed FrameBuffer.init frames.flatten = (FrameBuffer.init, frames) := by
  induction frames with
  | nil => simp [feed]
  | cons f fs ih =>
    have hf := feed_validFrame f (h f (by simp))
    have hfs := ih (fun g hg => h g (by simp [hg]))
    simp [List.flatten, feed_append, hf, hfs]

/-- C1.  Chunk invariance of the FrameAssembler: for any sequence of valid
(delimiter-balanced) frame texts and any partition of their concatenation
into chunks at arbitrary character boundaries, feeding the chunks in order
emits exactly those frames, in arrival order, each equal to its original
text including both delimiters; in particular a single valid frame split
into arbitrary chunks yields exactly one candidate equal to the original
text, and several complete frames inside one chunk are all emitted within
that same feed call in order. -/
theorem frameAssembler_chunk_invariance (chunks frames : List (List Char))
    (hf : ∀ f ∈ frames, ValidFrame f) (hjoin : chunks.flatten = frames.flatten) :
    feedAll FrameBuffer.init chunks = (FrameBuffer.init, frames) := by
  rw [feedAll_eq, hjoin, feed_frames frames hf]

theorem frameAssembler_chunk_invariance_witness :
    feedAll FrameBuffer.init [[lbrace], ['a'], [rbrace, lbrace, 'b', rbrace]]
      = (FrameBuffer.init, [[lbrace, 'a', rbrace], [lbrace, 'b', rbrace]]) :=
  frameAssembler_chunk_invariance _ _ (by decide) (by decide)

lemma stepChar_inv (st : FrameBuffer) (c : Char) (h : BufferInv st) :
    BufferInv (stepChar st c).1 := by
  obtain ⟨h0, hbuf⟩ := h
  unfold stepChar BufferInv
  split_ifs with h1 h2 h3 h4 h5 <;> simp_all <;> omega

lemma feed_inv (s : List Char) : ∀ st, BufferInv st → BufferInv (feed st s).1 := by
  induction s with
  | nil => intro st h; simpa [feed] using h
  | cons c cs ih =>
    intro st h
    rw [feed_cons]
    exact ih _ (stepChar_inv st c h)

/-- C2.  Depth invariant of the FrameAssembler: after processing any input,
however chunked, the buffer's nesting depth is nonnegative; whenever the
depth is zero (Idle) the buffered text is empty; and a closing delimiter
arriving in the Idle state is dropped — the buffer is unchanged and
nothing is emitted. -/
theorem frameAssembler_depth_invariant (chunks : List (List Char)) :
    0 ≤ ((feedAll FrameBuffer.init chunks).1).depth
    ∧ (((feedAll FrameBuffer.init chunks).1).depth = 0 →
        ((feedAll FrameBuffer.init chunks).1).buf = [])
    ∧ (((feedAll FrameBuffer.init chunks).1).depth = 0 →
        stepChar ((feedAll FrameBuffer.init chunks).1) rbrace
          = ((feedAll FrameBuffer.init chunks).1, [])) := by
  have hinv : BufferInv (feedAll FrameBuffer.init chunks).1 := by
    rw [feedAll_eq]
    exact feed_inv _ _ ⟨le_refl 0, fun _ => rfl⟩
  refine ⟨hinv.1, hinv.2, fun h0 => ?_⟩
  simp [stepChar, h0, rbrace_ne_lbrace]

theorem frameAssembler_depth_invariant_witness :
    0 ≤ ((feedAll FrameBuffer.init [[rbrace], [lbrace, 'a', rbrace]]).1).depth
    ∧ (((feedAll FrameBuffer.init [[rbrace], [lbrace, 'a', rbrace]]).1).depth = 0 →
        ((feedAll FrameBuffer.init [[rbrace], [lbrace, 'a', rbrace]]).1).buf = [])
    ∧ (((feedAll FrameBuffer.init [[rbrace], [lbrace, 'a', rbrace]]).1).depth = 0 →
        stepChar ((feedAll FrameBuffer.init [[rbrace], [lbrace, 'a', rbrace]]).1) rbrace
          = ((feedAll FrameBuffer.init [[rbrace], [lbrace, 'a', rbrace]]).1, [])) :=
  frameAssembler_depth_invariant _

/-! ## Lemmas about the FrameValidator -/

lemma validate_hasKeys {j : Json} {p : CanonicalPayload} (h : validate j = some p) :
    ∀ k ∈ expectedKeys, hasNumericKey j k = true := by
  unfold validate at h
  obtain ⟨fields, hf, h⟩ := Option.bind_eq_some.mp h
  obtain ⟨line, hl, h⟩ := Option.bind_eq_some.mp h
  obtain ⟨sensor, hs, h⟩ := Option.bind_eq_some.mp h
  obtain ⟨soil, e1, h⟩ := Option.bind_eq_some.mp h
  obtain ⟨temp, e2, h⟩ := Option.bind_eq_some.mp h
  obtain ⟨hum, e3, h⟩ := Option.bind_eq_some.mp h
  obtain ⟨mq2, e4, h⟩ := Option.bind_eq_some.mp h
  obtain ⟨rain, e5, h⟩ := Option.bind_eq_some.mp h
  obtain ⟨bio, e6, h⟩ := Option.bind_eq_some.mp h
  intro k hk
  simp [expectedKeys] at hk
  unfold hasNumericKey
  rcases hk with rfl | rfl | rfl | rfl | rfl | rfl <;>
    simp [hf, hs, e1, e2, e3, e4, e5, e6]

lemma validate_of_missing_key {j : Json} {k : String} (hk : k ∈ expectedKeys)
    (hmiss : hasNumericKey j k = false) : validate j = none := by
  cases hv : validate j with
  | none => rfl
  | some p =>
      have := validate_hasKeys hv k hk
      simp [hmiss] at this

/-- C3.  Validation rejection is side-effect-free: for every candidate
whose structured decoding fails or whose decoded value lacks one of the six
expected numeric keys (or carries it non-numerically), the validator
rejects, StateStore's current value is unchanged (a subsequent `get()`
returns the prior value), no broadcast reaches any subscriber, and the
rejection is merely counted. -/
theorem validator_rejection_no_side_effect
    (fails : Nat → CanonicalPayload → Bool) (sys : Sys) (d : Option Json)
    (src : Source) (t : Nat)
    (hbad : d = none ∨ ∃ j, d = some j ∧ ∃ k ∈ expectedKeys, hasNumericKey j k = false) :
    validateDecoded d = none
    ∧ sysGet (handleDecoded fails sys d src t) = sysGet sys
    ∧ (handleDecoded fails sys d src t).subs = sys.subs
    ∧ (handleDecoded fails sys d src t).rejected = sys.rejected + 1 := by
  have hnone : validateDecoded d = none := by
    rcases hbad with rfl | ⟨j, rfl, k, hk, hmiss⟩
    · rfl
    · simpa [validateDecoded] using validate_of_missing_key hk hmiss
  refine ⟨hnone, ?_, ?_, ?_⟩ <;> simp [handleDecoded, hnone, sysGet]

theorem validator_rejection_no_side_effect_witness :
    validateDecoded (some sampleBadJson) = none
    ∧ sysGet (handleDecoded noFail Sys.init (some sampleBadJson) Source.discrete 0)
        = sysGet Sys.init
    ∧ (handleDecoded noFail Sys.init (some sampleBadJson) Source.discrete 0).subs
        = Sys.init.subs
    ∧ (handleDecoded noFail Sys.init (some sampleBadJson) Source.discrete 0).rejected
        = Sys.init.rejected + 1 :=
  validator_rejection_no_side_effect noFail Sys.init (some sampleBadJson)
    Source.discrete 0
    (Or.inr ⟨sampleBadJson, rfl, "bio", by decide, by decide⟩)

/-! ## Lemmas about the BroadcastHub -/

lemma deliver_id (s : Subscriber) (p : CanonicalPayload) : (deliver s p).id = s.id := rfl

lemma publishSubs_eq (fails : Nat → CanonicalPayload → Bool)
    (subs : List Subscriber) (p : CanonicalPayload) :
    publishSubs fails subs p
      = (subs.filter (fun s => !(fails s.id p))).map (fun s => deliver s p) := by
  unfold publishSubs
  induction subs with
  | nil => rfl
  | cons s rest ih =>
      by_cases hf : fails s.id p <;>
        simp [List.filterMap_cons, List.filter_cons, hf, ih]

/-- C6.  Subscriber isolation: publishing delivers the payload to exactly
the subscribers whose send succeeds, in order — a failing subscriber alone
is removed from the set (no surviving subscriber carries its identity),
and a subscriber whose sends keep succeeding receives every subsequent
broadcast unaffected by other subscribers' failures. -/
theorem broadcastHub_subscriber_isolation
    (fails fails2 : Nat → CanonicalPayload → Bool) (subs : List Subscriber)
    (p q : CanonicalPayload) (s : Subscriber) (hmem : s ∈ subs) :
    publishSubs fails subs p
        = (subs.filter (fun x => !(fails x.id p))).map (fun x => deliver x p)
    ∧ (fails s.id p = true → ∀ x ∈ publishSubs fails subs p, x.id ≠ s.id)
    ∧ (fails s.id p = false → fails2 s.id q = false →
        deliver (deliver s p) q ∈ publishSubs fails2 (publishSubs fails subs p) q) := by
  refine ⟨publishSubs_eq fails subs p, ?_, ?_⟩
  · intro hf x hx heq
    rw [publishSubs_eq] at hx
    simp [List.mem_map, List.mem_filter] at hx
    obtain ⟨y, ⟨hy, hyf⟩, rfl⟩ := hx
    rw [deliver_id] at heq
    rw [heq] at hyf
    simp [hf] at hyf
  · intro hp hq
    have h1 : deliver s p ∈ publishSubs fails subs p := by
      rw [publishSubs_eq]
      exact List.mem_map_of_mem _ (List.mem_filter.mpr ⟨hmem, by simp [hp]⟩)
    rw [publishSubs_eq fails2]
    refine List.mem_map_of_mem _ (List.mem_filter.mpr ⟨h1, ?_⟩)
    simp [deliver_id, hq]

theorem broadcastHub_subscriber_isolation_witness :
    publishSubs (fun i _ => i == 1) [⟨0, []⟩, ⟨1, []⟩, ⟨2, []⟩] samplePayload
        = ([⟨0, []⟩, ⟨1, []⟩, ⟨2, []⟩].filter
            (fun x => !((fun (i : Nat) (_ : CanonicalPayload) => i == 1) x.id samplePayload))).map
            (fun x => deliver x samplePayload)
    ∧ ((fun (i : Nat) (_ : CanonicalPayload) => i == 1) 0 samplePayload = true →
        ∀ x ∈ publishSubs (fun i _ => i == 1) [⟨0, []⟩, ⟨1, []⟩, ⟨2, []⟩] samplePayload,
          x.id ≠ (⟨0, []⟩ : Subscriber).id)
    ∧ ((fun (i : Nat) (_ : CanonicalPayload) => i == 1) 0 samplePayload = false →
        noFail 0 samplePayload2 = false →
        deliver (deliver ⟨0, []⟩ samplePayload) samplePayload2
          ∈ publishSubs noFail
              (publishSubs (fun i _ => i == 1) [⟨0, []⟩, ⟨1, []⟩, ⟨2, []⟩] samplePayload)
              samplePayload2) :=
  broadcastHub_subscriber_isolation (fun i _ => i == 1) noFail
    [⟨0, []⟩, ⟨1, []⟩, ⟨2, []⟩] samplePayload samplePayload2 ⟨0, []⟩ (by decide)

/-! ## Lemmas about the event-driven gateway -/

lemma run_nil (fails : Nat → CanonicalPayload → Bool) (sys : Sys) :
    run fails sys [] = sys := rfl

lemma run_cons (fails : Nat → CanonicalPayload → Bool) (sys : Sys) (e : Event)
    (evs : List Event) :
    run fails sys (e :: evs) = run fails (stepEvent fails sys e) evs := rfl

lemma run_append (fails : Nat → CanonicalPayload → Bool) (sys : Sys)
    (evs1 evs2 : List Event) :
    run fails sys (evs1 ++ evs2) = run fails (run fails sys evs1) evs2 := by
  unfold run
  exact List.foldl_append _ _ _ _

lemma stepEvent_nextId_le (fails : Nat → CanonicalPayload → Bool) (sys : Sys)
    (e : Event) : sys.nextId ≤ (stepEvent fails sys e).nextId := by
  cases e with
  | accept p src t => simp [stepEvent]
  | tick => cases h : sys.store <;> simp [stepEvent, h]
  | connect => simp [stepEvent]
  | disconnect i => simp [stepEvent]

lemma publishSubs_map_id (fails : Nat → CanonicalPayload → Bool)
    (subs : List Subscriber) (p : CanonicalPayload) :
    List.Sublist ((publishSubs fails subs p).map Subscriber.id)
      (subs.map Subscriber.id) := by
  rw [publishSubs_eq, List.map_map]
  have hcomp : (Subscriber.id ∘ fun s => deliver s p) = Subscriber.id := rfl
  rw [hcomp]
  exact (List.filter_sublist _).map _

lemma sysInv_step (fails : Nat → CanonicalPayload → Bool) (sys : Sys) (e : Event)
    (h : SysInv sys) : SysInv (stepEvent fails sys e) := by
  obtain ⟨hbound, hnd⟩ := h
  have hpub : ∀ p, (∀ s ∈ publishSubs fails sys.subs p, s.id < sys.nextId)
      ∧ ((publishSubs fails sys.subs p).map Subscriber.id).Nodup := by
    intro p
    constructor
    · intro s hs
      have hid : s.id ∈ (publishSubs fails sys.subs p).map Subscriber.id :=
        List.mem_map_of_mem _ hs
      have hid2 : s.id ∈ sys.subs.map Subscriber.id :=
        (publishSubs_map_id fails sys.subs p).subset hid
      obtain ⟨y, hy, hyid⟩ := List.mem_map.mp hid2
      rw [← hyid]
      exact hbound y hy
    · exact hnd.sublist (publishSubs_map_id fails sys.subs p)
  cases e with
  | accept p src t =>
      exact ⟨(hpub p).1, (hpub p).2⟩
  | tick =>
      cases hst : sys.store with
      | none => simpa [stepEvent, hst] using ⟨hbound, hnd⟩
      | some cs =>
          refine ⟨?_, ?_⟩ <;> simp [stepEvent, hst]
          · exact (hpub cs.payload).1
          · exact (hpub cs.payload).2
  | connect =>
      constructor
      · intro s hs
        simp [stepEvent] at hs ⊢
        rcases hs with hs | rfl
        · exact Nat.lt_succ_of_lt (hbound s hs)
        · exact Nat.lt_succ_self _
      · simp [stepEvent, List.nodup_append, hnd]
        intro x hx heq
        have := hbound x hx
        omega
  | disconnect i =>
      constructor
      · intro s hs
        simp [stepEvent] at hs
        exact hbound s hs.1
      · simp [stepEvent]
        exact hnd.sublist ((List.filter_sublist _).map _)

lemma sysInv_run (fails : Nat → CanonicalPayload → Bool) (evs : List Event) :
    ∀ sys, SysInv sys → SysInv (run fails sys evs) := by
  induction evs with
  | nil => intro sys h; simpa [run_nil] using h
  | cons e evs ih =>
      intro sys h
      rw [run_cons]
      exact ih _ (sysInv_step fails sys e h)

lemma sysInv_init : SysInv Sys.init := by
  constructor
  · intro s hs; simp [Sys.init] at hs
  · simp [Sys.init]

lemma find?_append_some {l1 : List Subscriber} (l2 : List Subscriber)
    (f : Subscriber → Bool) {a : Subscriber} (h : l1.find? f = some a) :
    (l1 ++ l2).find? f = some a := by
  rw [List.find?_append, h]
  rfl

lemma find?_append_none {l1 : List Subscriber} (l2 : List Subscriber)
    (f : Subscriber → Bool) (h : l1.find? f = none) :
    (l1 ++ l2).find? f = l2.find? f := by
  rw [List.find?_append, h]
  rfl

lemma find?_filter_ne (j i : Nat) (hne : i ≠ j) (l : List Subscriber) :
    (l.filter (fun s => s.id != j)).find? (fun s => s.id == i)
      = l.find? (fun s => s.id == i) := by
  induction l with
  | nil => rfl
  | cons x xs ih =>
      by_cases hx : x.id = i
      · have hxj : (x.id != j) = true := by simp [hx]; omega
        simp [List.filter_cons, hxj, List.find?, hx, hne]
      · by_cases hxj : x.id = j
        · have hxj' : (x.id != j) = false := by simp [hxj]
          have hxi : (x.id == i) = false := by simp [hx]
          simp [List.filter_cons, hxj', List.find?, hxi, ih]
        · have hxj' : (x.id != j) = true := by simp [hxj]
          have hxi : (x.id == i) = false := by simp [hx]
          simp [List.filter_cons, hxj', List.find?, hxi, ih]

lemma find?_publishSubs (fails : Nat → CanonicalPayload → Bool) (p : CanonicalPayload)
    (i : Nat) (subs : List Subscriber) (hnd : (subs.map Subscriber.id).Nodup) :
    (publishSubs fails subs p).find? (fun s => s.id == i)
      = match subs.find? (fun s => s.id == i) with
        | none => none
        | some s => if fails s.id p then none else some (deliver s p) := by
  induction subs with
  | nil => rfl
  | cons x rest ih =>
      have hnd' : (rest.map Subscriber.id).Nodup := by
        simp [List.nodup_cons] at hnd; exact hnd.2
      have hxnotin : x.id ∉ rest.map Subscriber.id := by
        simp [List.nodup_cons] at hnd
        simpa using hnd.1
      by_cases hx : x.id = i
      · subst hx
        by_cases hf : fails x.id p
        · have hlhs : publishSubs fails (x :: rest) p = publishSubs fails rest p := by
            unfold publishSubs; simp [List.filterMap_cons, hf]
          have hr : (x :: rest).find? (fun s => s.id == x.id) = some x := by
            simp [List.find?]
          rw [hlhs, ih hnd', hr]
          have hrn : rest.find? (fun s => s.id == x.id) = none := by
            rw [List.find?_eq_none]
            intro y hy
            simp
            intro heq
            exact hxnotin (by rw [← heq]; exact List.mem_map_of_mem _ hy)
          rw [hrn]
          simp [hf]
        · have hlhs : publishSubs fails (x :: rest) p
              = deliver x p :: publishSubs fails rest p := by
            unfold publishSubs; simp [List.filterMap_cons, hf]
          have hr : (x :: rest).find? (fun s => s.id == x.id) = some x := by
            simp [List.find?]
          have hdi : ((deliver x p).id == x.id) = true := by simp [deliver_id]
          rw [hlhs, hr]
          simp [List.find?, hdi, hf]
      · by_cases hf : fails x.id p
        · have hlhs : publishSubs fails (x :: rest) p = publishSubs fails rest p := by
            unfold publishSubs; simp [List.filterMap_cons, hf]
          have hxi : (x.id == i) = false := by simp [hx]
          rw [hlhs, ih hnd']
          have hr : (x :: rest).find? (fun s => s.id == i)
              = rest.find? (fun s => s.id == i) := by
            simp [List.find?, hxi]
          rw [hr]
        · have hlhs : publishSubs fails (x :: rest) p
              = deliver x p :: publishSubs fails rest p := by
            unfold publishSubs; simp [List.filterMap_cons, hf]
          have hxi : (x.id == i) = false := by simp [hx]
          have hdi : ((deliver x p).id == i) = false := by simp [deliver_id, hx]
          rw [hlhs]
          simp [List.find?, hxi, hdi, ih hnd']

lemma findSub_eq_some_id {sys : Sys} {i : Nat} {s : Subscriber}
    (h : findSub sys i = some s) : s.id = i ∧ s ∈ sys.subs := by
  unfold findSub at h
  have h1 := List.find?_some h
  have h2 := List.mem_of_find?_eq_some h
  simp at h1
  exact ⟨h1, h2⟩

lemma findSub_step_prefix (fails : Nat → CanonicalPayload → Bool) (sys : Sys)
    (e : Event) (i : Nat) (s : Subscriber) (hinv : SysInv sys)
    (h : findSub sys i = some s) :
    findSub (stepEvent fails sys e) i = none
    ∨ ∃ s2, findSub (stepEvent fails sys e) i = some s2 ∧ s.inbox <+: s2.inbox := by
  cases e with
  | accept p src t =>
      have hfind : findSub (stepEvent fails sys (.accept p src t)) i
          = (publishSubs fails sys.subs p).find? (fun s => s.id == i) := rfl
      unfold findSub at h
      rw [hfind, find?_publishSubs fails p i sys.subs hinv.2, h]
      by_cases hf : fails s.id p
      · left; simp [hf]
      · right
        exact ⟨deliver s p, by simp [hf], List.prefix_append _ _⟩
  | tick =>
      cases hst : sys.store with
      | none =>
          right
          refine ⟨s, ?_, List.prefix_rfl⟩
          have heq : stepEvent fails sys .tick = sys := by simp [stepEvent, hst]
          rw [heq]; exact h
      | some cs =>
          have hfind : findSub (stepEvent fails sys .tick) i
              = (publishSubs fails sys.subs cs.payload).find? (fun s => s.id == i) := by
            simp [findSub, stepEvent, hst]
          unfold findSub at h
          rw [hfind, find?_publishSubs fails cs.payload i sys.subs hinv.2, h]
          by_cases hf : fails s.id cs.payload
          · left; simp [hf]
          · right
            exact ⟨deliver s cs.payload, by simp [hf], List.prefix_append _ _⟩
  | connect =>
      right
      refine ⟨s, ?_, List.prefix_rfl⟩
      show (sys.subs ++ [Subscriber.mk sys.nextId []]).find? (fun x => x.id == i) = some s
      exact find?_append_some _ _ h
  | disconnect j =>
      obtain ⟨hid, hmem⟩ := findSub_eq_some_id h
      by_cases hij : i = j
      · left
        show (sys.subs.filter (fun x => x.id != j)).find? (fun x => x.id == i) = none
        rw [List.find?_eq_none]
        intro x hx
        simp at hx ⊢
        intro heq
        exact absurd (heq.trans hij) hx.2
      · right
        refine ⟨s, ?_, List.prefix_rfl⟩
        show (sys.subs.filter (fun x => x.id != j)).find? (fun x => x.id == i) = some s
        rw [find?_filter_ne j i hij]
        exact h

lemma findSub_run_none (fails : Nat → CanonicalPayload → Bool) (evs : List Event) :
    ∀ (sys : Sys) (i : Nat), i < sys.nextId → SysInv sys →
      findSub sys i = none → findSub (run fails sys evs) i = none := by
  induction evs with
  | nil => intro sys i _ _ h3; simpa [run_nil] using h3
  | cons e evs ih =>
      intro sys i h1 h2 h3
      rw [run_cons]
      refine ih _ _ (lt_of_lt_of_le h1 (stepEvent_nextId_le fails sys e))
        (sysInv_step fails sys e h2) ?_
      cases e with
      | accept p src t =>
          have hfind : findSub (stepEvent fails sys (.accept p src t)) i
              = (publishSubs fails sys.subs p).find? (fun s => s.id == i) := rfl
          unfold findSub at h3
          rw [hfind, find?_publishSubs fails p i sys.subs h2.2, h3]
      | tick =>
          cases hst : sys.store with
          | none =>
              have heq : stepEvent fails sys .tick = sys := by simp [stepEvent, hst]
              rw [heq]; exact h3
          | some cs =>
              have hfind : findSub (stepEvent fails sys .tick) i
                  = (publishSubs fails sys.subs cs.payload).find? (fun s => s.id == i) := by
                simp [findSub, stepEvent, hst]
              unfold findSub at h3
              rw [hfind, find?_publishSubs fails cs.payload i sys.subs h2.2, h3]
      | connect =>
          show (sys.subs ++ [Subscriber.mk sys.nextId []]).find? (fun x => x.id == i) = none
          unfold findSub at h3
          rw [find?_append_none _ _ h3]
          have hne : (sys.nextId == i) = false := by simp; omega
          simp [List.find?, hne]
      | disconnect j =>
          show (sys.subs.filter (fun x => x.id != j)).find? (fun x => x.id == i) = none
          unfold findSub at h3
          rw [List.find?_eq_none] at h3 ⊢
          intro x hx
          exact h3 x (List.mem_of_mem_filter hx)

lemma findSub_run_prefix (fails : Nat → CanonicalPayload → Bool) (evs : List Event) :
    ∀ (sys : Sys) (i : Nat) (s s2 : Subscriber), SysInv sys →
      findSub sys i = some s → findSub (run fails sys evs) i = some s2 →
      s.inbox <+: s2.inbox := by
  induction evs with
  | nil =>
      intro sys i s s2 _ h1 h2
      rw [run_nil, h1] at h2
      injection h2 with h2
      rw [h2]
  | cons e evs ih =>
      intro sys i s s2 hinv h1 h2
      rw [run_cons] at h2
      rcases findSub_step_prefix fails sys e i s hinv h1 with hnone | ⟨s1, hs1, hpre⟩
      · exfalso
        obtain ⟨hid, hmem⟩ := findSub_eq_some_id h1
        have hb := hinv.1 s hmem
        have hle := stepEvent_nextId_le fails sys e
        have hlt : i < (stepEvent fails sys e).nextId := by omega
        have hn := findSub_run_none fails evs _ _ hlt (sysInv_step fails sys e hinv) hnone
        rw [hn] at h2
        exact Option.noConfusion h2
      · exact hpre.trans (ih _ _ _ _ (sysInv_step fails sys e hinv) hs1 h2)

/-- C5.  Broadcast ordering: for any two frames accepted in order A then B
(with arbitrary events before, between and after), every subscriber that
was connected at both acceptance instants and whose sends succeed receives
the broadcast carrying A at a strictly earlier position of its inbox than
the broadcast carrying B — it never observes B's payload before A's. -/
theorem broadcast_ordering
    (fails : Nat → CanonicalPayload → Bool) (pre mid : List Event)
    (A B : CanonicalPayload) (srcA srcB : Source) (tA tB : Nat)
    (i : Nat) (s0 s2 : Subscriber)
    (h0 : findSub (run fails Sys.init pre) i = some s0)
    (hfA : fails i A = false)
    (h2 : findSub (run fails (stepEvent fails (run fails Sys.init pre)
            (.accept A srcA tA)) mid) i = some s2)
    (hfB : fails i B = false) :
    ∃ s3 : Subscriber, ∃ a b : Nat,
      findSub (stepEvent fails (run fails (stepEvent fails (run fails Sys.init pre)
          (.accept A srcA tA)) mid) (.accept B srcB tB)) i = some s3
      ∧ a < b ∧ s3.inbox.get? a = some A ∧ s3.inbox.get? b = some B := by
  have hinv0 : SysInv (run fails Sys.init pre) := sysInv_run fails pre Sys.init sysInv_init
  obtain ⟨hid0, hmem0⟩ := findSub_eq_some_id h0
  have hstep1 : findSub (stepEvent fails (run fails Sys.init pre) (.accept A srcA tA)) i
      = some (deliver s0 A) := by
    have hfind : findSub (stepEvent fails (run fails Sys.init pre) (.accept A srcA tA)) i
        = (publishSubs fails (run fails Sys.init pre).subs A).find? (fun s => s.id == i) := rfl
    unfold findSub at h0
    rw [hfind, find?_publishSubs fails A i _ hinv0.2, h0]
    simp [hid0, hfA]
  have hinv1 : SysInv (stepEvent fails (run fails Sys.init pre) (.accept A srcA tA)) :=
    sysInv_step _ _ _ hinv0
  have hpre1 : (deliver s0 A).inbox <+: s2.inbox :=
    findSub_run_prefix fails mid _ i _ _ hinv1 hstep1 h2
  have hinv2 : SysInv (run fails (stepEvent fails (run fails Sys.init pre)
      (.accept A srcA tA)) mid) := sysInv_run fails mid _ hinv1
  obtain ⟨hid2, hmem2⟩ := findSub_eq_some_id h2
  have hstep3 : findSub (stepEvent fails (run fails (stepEvent fails (run fails Sys.init pre)
      (.accept A srcA tA)) mid) (.accept B srcB tB)) i = some (deliver s2 B) := by
    have hfind : findSub (stepEvent fails (run fails (stepEvent fails (run fails Sys.init pre)
        (.accept A srcA tA)) mid) (.accept B srcB tB)) i
        = (publishSubs fails (run fails (stepEvent fails (run fails Sys.init pre)
            (.accept A srcA tA)) mid).subs B).find? (fun s => s.id == i) := rfl
    unfold findSub at h2
    rw [hfind, find?_publishSubs fails B i _ hinv2.2, h2]
    simp [hid2, hfB]
  refine ⟨deliver s2 B, s0.inbox.length, s2.inbox.length, hstep3, ?_, ?_, ?_⟩
  · have hlen := hpre1.length_le
    simp [deliver] at hlen
    omega
  · obtain ⟨rest, hrest⟩ := hpre1
    show (s2.inbox ++ [B]).get? s0.inbox.length = some A
    rw [← hrest]
    have hlt1 : s0.inbox.length < (deliver s0 A).inbox.length := by simp [deliver]
    rw [List.get?_append (lt_of_lt_of_le hlt1 (by simp))]
    rw [List.get?_append hlt1]
    exact List.get?_concat_length s0.inbox A
  · show (s2.inbox ++ [B]).get? s2.inbox.length = some B
    exact List.get?_concat_length s2.inbox B

theorem broadcast_ordering_witness :
    ∃ s3 : Subscriber, ∃ a b : Nat,
      findSub (stepEvent noFail (run noFail (stepEvent noFail (run noFail Sys.init
          [Event.connect]) (.accept samplePayload Source.stream 0)) [])
          (.accept samplePayload2 Source.discrete 1)) 0 = some s3
      ∧ a < b ∧ s3.inbox.get? a = some samplePayload
      ∧ s3.inbox.get? b = some samplePayload2 :=
  broadcast_ordering noFail [Event.connect] [] samplePayload samplePayload2
    Source.stream Source.discrete 0 1 0 ⟨0, []⟩ ⟨0, [samplePayload]⟩
    (by decide) (by decide) (by decide) (by decide)

/-- C7.  Heartbeat convergence: a subscriber that connects after the last
accepted frame, with no new ingestion occurring, receives the current
StateStore payload at the next heartbeat tick — the fixed-interval timer
re-publishes the current value independently of new input, so a late
joiner converges within one heartbeat interval. -/
theorem heartbeat_convergence
    (fails : Nat → CanonicalPayload → Bool) (pre : List Event) (cs : CurrentState)
    (hstore : (run fails Sys.init pre).store = some cs)
    (hok : fails (run fails Sys.init pre).nextId cs.payload = false) :
    findSub (run fails Sys.init (pre ++ [Event.connect, Event.tick]))
        ((run fails Sys.init pre).nextId)
      = some ⟨(run fails Sys.init pre).nextId, [cs.payload]⟩ := by
  have hinv0 : SysInv (run fails Sys.init pre) := sysInv_run fails pre Sys.init sysInv_init
  have hsplit : run fails Sys.init (pre ++ [Event.connect, Event.tick])
      = stepEvent fails (stepEvent fails (run fails Sys.init pre) Event.connect)
          Event.tick := by
    rw [run_append]
    rfl
  rw [hsplit]
  have hfind1 : findSub (stepEvent fails (run fails Sys.init pre) Event.connect)
      (run fails Sys.init pre).nextId
      = some (Subscriber.mk (run fails Sys.init pre).nextId []) := by
    show ((run fails Sys.init pre).subs
        ++ [Subscriber.mk (run fails Sys.init pre).nextId []]).find?
        (fun x => x.id == (run fails Sys.init pre).nextId)
        = some (Subscriber.mk (run fails Sys.init pre).nextId [])
    have hnone : (run fails Sys.init pre).subs.find?
        (fun x => x.id == (run fails Sys.init pre).nextId) = none := by
      rw [List.find?_eq_none]
      intro x hx
      have := hinv0.1 x hx
      simp
      omega
    rw [find?_append_none _ _ hnone]
    simp [List.find?]
  have hinv1 : SysInv (stepEvent fails (run fails Sys.init pre) Event.connect) :=
    sysInv_step _ _ _ hinv0
  have hstore1 : (stepEvent fails (run fails Sys.init pre) Event.connect).store
      = some cs := by simpa [stepEvent] using hstore
  have hfind : findSub (stepEvent fails (stepEvent fails (run fails Sys.init pre)
      Event.connect) Event.tick) (run fails Sys.init pre).nextId
      = (publishSubs fails (stepEvent fails (run fails Sys.init pre) Event.connect).subs
          cs.payload).find? (fun s => s.id == (run fails Sys.init pre).nextId) := by
    simp [findSub, stepEvent, hstore, hstore1]
  rw [hfind, find?_publishSubs fails cs.payload _ _ hinv1.2]
  unfold findSub at hfind1
  rw [hfind1]
  simp [hok, deliver]

theorem heartbeat_convergence_witness :
    findSub (run noFail Sys.init ([Event.accept samplePayload Source.stream 5]
        ++ [Event.connect, Event.tick]))
        ((run noFail Sys.init [Event.accept samplePayload Source.stream 5]).nextId)
      = some ⟨(run noFail Sys.init
          [Event.accept samplePayload Source.stream 5]).nextId, [samplePayload]⟩ :=
  heartbeat_convergence noFail [Event.accept samplePayload Source.stream 5]
    ⟨samplePayload, 5, Source.stream⟩ (by decide) (by decide)

lemma stepEvent_no_accept (fails : Nat → CanonicalPayload → Bool) (sys : Sys)
    (e : Event) (hne : isAccept e = false)
    (h1 : sys.store = none) (h2 : ∀ s ∈ sys.subs, s.inbox = []) :
    (stepEvent fails sys e).store = none
    ∧ ∀ s ∈ (stepEvent fails sys e).subs, s.inbox = [] := by
  cases e with
  | accept p src t => simp [isAccept] at hne
  | tick =>
      have heq : stepEvent fails sys .tick = sys := by simp [stepEvent, h1]
      rw [heq]; exact ⟨h1, h2⟩
  | connect =>
      refine ⟨h1, ?_⟩
      intro s hs
      simp [stepEvent] at hs
      rcases hs with hs | rfl
      · exact h2 s hs
      · rfl
  | disconnect j =>
      refine ⟨h1, ?_⟩
      intro s hs
      simp [stepEvent] at hs
      exact h2 s hs.1

lemma run_no_accept (fails : Nat → CanonicalPayload → Bool) (evs : List Event)
    (hno : ∀ e ∈ evs, isAccept e = false) :
    ∀ sys, sys.store = none → (∀ s ∈ sys.subs, s.inbox = []) →
      (run fails sys evs).store = none
      ∧ ∀ s ∈ (run fails sys evs).subs, s.inbox = [] := by
  induction evs with
  | nil => intro sys h1 h2; rw [run_nil]; exact ⟨h1, h2⟩
  | cons e evs ih =>
      intro sys h1 h2
      rw [run_cons]
      have h' := stepEvent_no_accept fails sys e (hno e (by simp)) h1 h2
      exact ih (fun x hx => hno x (by simp [hx])) _ h'.1 h'.2

/-- C8.  Publish before the first reading is a no-op: along any event
sequence containing no accepted frame, the StateStore stays empty, no
subscriber ever receives any payload, and a heartbeat tick leaves the
whole gateway state unchanged — nothing is sent and no state changes. -/
theorem publish_before_first_reading_noop
    (fails : Nat → CanonicalPayload → Bool) (evs : List Event)
    (hno : ∀ e ∈ evs, isAccept e = false) :
    (run fails Sys.init evs).store = none
    ∧ (∀ s ∈ (run fails Sys.init evs).subs, s.inbox = [])
    ∧ stepEvent fails (run fails Sys.init evs) Event.tick = run fails Sys.init evs := by
  have h := run_no_accept fails evs hno Sys.init rfl
    (by intro s hs; simp [Sys.init] at hs)
  exact ⟨h.1, h.2, by simp [stepEvent, h.1]⟩

theorem publish_before_first_reading_noop_witness :
    (run noFail Sys.init [Event.connect, Event.tick, Event.disconnect 0]).store = none
    ∧ (∀ s ∈ (run noFail Sys.init [Event.connect, Event.tick, Event.disconnect 0]).subs,
        s.inbox = [])
    ∧ stepEvent noFail (run noFail Sys.init [Event.connect, Event.tick, Event.disconnect 0])
        Event.tick
      = run noFail Sys.init [Event.connect, Event.tick, Event.disconnect 0] :=
  publish_before_first_reading_noop noFail
    [Event.connect, Event.tick, Event.disconnect 0] (by decide)

/-- C4.  Source-agnostic canonical payload: one frame text delivered
through the continuous stream path (arbitrarily chunked, reassembled by the
FrameAssembler into exactly one candidate, decoded, validated, stored and
broadcast) produces the same canonical payload, the same subscriber
deliveries and the same counters as the identical frame text submitted
through the discrete path — both pass through the same validator, store
and hub; only the store's source tag and timestamp differ. -/
theorem source_agnostic_payload
    (fails : Nat → CanonicalPayload → Bool) (decode : List Char → Option Json)
    (sys : Sys) (chunks : List (List Char)) (text : List Char) (tS tD : Nat)
    (hvalid : ValidFrame text) (hjoin : chunks.flatten = text) :
    (feedAll FrameBuffer.init chunks).2 = [text]
    ∧ (ingestStream fails decode sys FrameBuffer.init chunks tS).2.subs
        = (ingest fails decode sys text Source.discrete tD).subs
    ∧ ((ingestStream fails decode sys FrameBuffer.init chunks tS).2.store.map
          (fun cs => cs.payload))
        = ((ingest fails decode sys text Source.discrete tD).store.map
          (fun cs => cs.payload))
    ∧ (ingestStream fails decode sys FrameBuffer.init chunks tS).2.accepted
        = (ingest fails decode sys text Source.discrete tD).accepted
    ∧ (ingestStream fails decode sys FrameBuffer.init chunks tS).2.rejected
        = (ingest fails decode sys text Source.discrete tD).rejected := by
  have hcand : feedAll FrameBuffer.init chunks = (FrameBuffer.init, [text]) := by
    rw [feedAll_eq, hjoin]
    exact feed_validFrame text hvalid
  have hstream : (ingestStream fails decode sys FrameBuffer.init chunks tS).2
      = ingest fails decode sys text Source.stream tS := by
    unfold ingestStream
    rw [hcand]
    rfl
  rw [hstream]
  refine ⟨by rw [hcand], ?_, ?_, ?_, ?_⟩ <;>
    cases hv : validateDecoded (decode text) <;>
      simp [ingest, handleDecoded, hv, stepEvent]

theorem source_agnostic_payload_witness :
    (feedAll FrameBuffer.init [[lbrace, 'a'], ['b', rbrace]]).2
        = [[lbrace, 'a', 'b', rbrace]]
    ∧ (ingestStream noFail sampleDecode Sys.init FrameBuffer.init
          [[lbrace, 'a'], ['b', rbrace]] 0).2.subs
        = (ingest noFail sampleDecode Sys.init [lbrace, 'a', 'b', rbrace]
            Source.discrete 1).subs
    ∧ ((ingestStream noFail sampleDecode Sys.init FrameBuffer.init
          [[lbrace, 'a'], ['b', rbrace]] 0).2.store.map (fun cs => cs.payload))
        = ((ingest noFail sampleDecode Sys.init [lbrace, 'a', 'b', rbrace]
            Source.discrete 1).store.map (fun cs => cs.payload))
    ∧ (ingestStream noFail sampleDecode Sys.init FrameBuffer.init
          [[lbrace, 'a'], ['b', rbrace]] 0).2.accepted
        = (ingest noFail sampleDecode Sys.init [lbrace, 'a', 'b', rbrace]
            Source.discrete 1).accepted
    ∧ (ingestStream noFail sampleDecode Sys.init FrameBuffer.init
          [[lbrace, 'a'], ['b', rbrace]] 0).2.rejected
        = (ingest noFail sampleDecode Sys.init [lbrace, 'a', 'b', rbrace]
            Source.discrete 1).rejected :=
  source_agnostic_payload noFail sampleDecode Sys.init
    [[lbrace, 'a'], ['b', rbrace]] [lbrace, 'a', 'b', rbrace] 0 1
    (by decide) (by decide)

/-! ## Lemmas about the sensor device -/

lemma encodeInt_intCast (n : Int) : encodeInt ((n : Rat)) = intStr n := by
  unfold encodeInt
  rw [Rat.num_intCast]

lemma encodeFrac1_tenths (t : Int) : encodeFrac1 ((t : Rat) / 10) = fmt1 t := by
  unfold encodeFrac1
  rw [div_mul_cancel₀ ((t : Rat)) (by norm_num : (10 : Rat) ≠ 0), Rat.num_intCast]

lemma validate_deviceFrame (v : SensorVals) :
    validate (deviceFrame v)
      = some ⟨String.mk (buildLine v),
          ⟨(v.soil : Rat), (v.tempTenths : Rat) / 10, (v.humTenths : Rat) / 10,
           (v.mq2 : Rat), (v.rain : Rat), (v.bio : Rat)⟩⟩ := rfl

/-- C9.  Frame pair consistency: every frame the sketch emits is a
structured object whose `line` field is exactly the semicolon-delimited
encoding `STATE;soil=…;temp=…;hum=…;mq2=…;rain=…;bio=…` built from the
same six values carried in its nested `json` object, with the fixed
record-type marker, temperature and humidity rendered with one decimal
digit and the other four as integers; the frame also validates to the
canonical payload carrying precisely those six values. -/
theorem device_frame_pair_consistency (v : SensorVals)
    (soil temp hum mq2 rain bio : Rat)
    (hs : numField (deviceJsonFields v) "soil" = some soil)
    (ht : numField (deviceJsonFields v) "temp" = some temp)
    (hh : numField (deviceJsonFields v) "hum" = some hum)
    (hm : numField (deviceJsonFields v) "mq2" = some mq2)
    (hr : numField (deviceJsonFields v) "rain" = some rain)
    (hb : numField (deviceJsonFields v) "bio" = some bio) :
    buildLine v
      = "STATE;soil=".data ++ encodeInt soil
        ++ ";temp=".data ++ encodeFrac1 temp
        ++ ";hum=".data ++ encodeFrac1 hum
        ++ ";mq2=".data ++ encodeInt mq2
        ++ ";rain=".data ++ encodeInt rain
        ++ ";bio=".data ++ encodeInt bio
    ∧ validate (deviceFrame v)
        = some ⟨String.mk (buildLine v), ⟨soil, temp, hum, mq2, rain, bio⟩⟩ := by
  have es : numField (deviceJsonFields v) "soil" = some ((v.soil : Rat)) := rfl
  have et : numField (deviceJsonFields v) "temp" = some ((v.tempTenths : Rat) / 10) := rfl
  have eh : numField (deviceJsonFields v) "hum" = some ((v.humTenths : Rat) / 10) := rfl
  have em : numField (deviceJsonFields v) "mq2" = some ((v.mq2 : Rat)) := rfl
  have er : numField (deviceJsonFields v) "rain" = some ((v.rain : Rat)) := rfl
  have eb : numField (deviceJsonFields v) "bio" = some ((v.bio : Rat)) := rfl
  rw [es] at hs
  rw [et] at ht
  rw [eh] at hh
  rw [em] at hm
  rw [er] at hr
  rw [eb] at hb
  have hs' := Option.some.inj hs
  have ht' := Option.some.inj ht
  have hh' := Option.some.inj hh
  have hm' := Option.some.inj hm
  have hr' := Option.some.inj hr
  have hb' := Option.some.inj hb
  subst hs'
  subst ht'
  subst hh'
  subst hm'
  subst hr'
  subst hb'
  constructor
  · rw [encodeInt_intCast v.soil, encodeFrac1_tenths v.tempTenths,
      encodeFrac1_tenths v.humTenths, encodeInt_intCast v.mq2,
      encodeInt_intCast v.rain, encodeInt_intCast v.bio]
    rfl
  · exact validate_deviceFrame v

theorem device_frame_pair_consistency_witness :
    buildLine ⟨395, 1020, 85, 513, 229, 190⟩
      = "STATE;soil=".data ++ encodeInt (((395 : Int) : Rat))
        ++ ";temp=".data ++ encodeFrac1 (((229 : Int) : Rat) / 10)
        ++ ";hum=".data ++ encodeFrac1 (((190 : Int) : Rat) / 10)
        ++ ";mq2=".data ++ encodeInt (((85 : Int) : Rat))
        ++ ";rain=".data ++ encodeInt (((1020 : Int) : Rat))
        ++ ";bio=".data ++ encodeInt (((513 : Int) : Rat))
    ∧ validate (deviceFrame ⟨395, 1020, 85, 513, 229, 190⟩)
        = some ⟨String.mk (buildLine ⟨395, 1020, 85, 513, 229, 190⟩),
            ⟨((395 : Int) : Rat), ((229 : Int) : Rat) / 10, ((190 : Int) : Rat) / 10,
             ((85 : Int) : Rat), ((1020 : Int) : Rat), ((513 : Int) : Rat)⟩⟩ :=
  device_frame_pair_consistency ⟨395, 1020, 85, 513, 229, 190⟩
    (((395 : Int) : Rat)) (((229 : Int) : Rat) / 10) (((190 : Int) : Rat) / 10)
    (((85 : Int) : Rat)) (((1020 : Int) : Rat)) (((513 : Int) : Rat))
    rfl rfl rfl rfl rfl rfl

/-- C10.  NaN substitution at the device: when a DHT read yields NaN
(modelled as `none`) for temperature or humidity, the sketch substitutes 0
for that value before building the frame, so the emitted frame still
carries all six numeric fields and validates successfully — the failed
read appears downstream as the legitimate-looking reading 0 (rendered
`0.0` on the line) rather than as a missing field or a rejection. -/
theorem device_nan_substitution (soil rain mq2 bio : Int) (ht hh : Option Int) :
    dhtOrZero none = 0
    ∧ validate (deviceFrame (loopVals soil rain mq2 bio ⟨none, hh⟩))
        = some ⟨String.mk (buildLine (loopVals soil rain mq2 bio ⟨none, hh⟩)),
            ⟨(soil : Rat), 0, (dhtOrZero hh : Rat) / 10,
             (mq2 : Rat), (rain : Rat), (bio : Rat)⟩⟩
    ∧ validate (deviceFrame (loopVals soil rain mq2 bio ⟨ht, none⟩))
        = some ⟨String.mk (buildLine (loopVals soil rain mq2 bio ⟨ht, none⟩)),
            ⟨(soil : Rat), (dhtOrZero ht : Rat) / 10, 0,
             (mq2 : Rat), (rain : Rat), (bio : Rat)⟩⟩
    ∧ fmt1 (dhtOrZero none) = "0.0".data := by
  refine ⟨rfl, ?_, ?_, by decide⟩
  · rw [validate_deviceFrame]
    simp [loopVals, dhtOrZero]
  · rw [validate_deviceFrame]
    simp [loopVals, dhtOrZero]

end Plantagotchi
